import Mathlib

/-!
Shallow embedding of the RUST_BLOCKCHAIN runtime (src/balances.rs,
src/proof_of_existence.rs, src/system.rs, src/main.rs).

Concrete types are the ones `main.rs` instantiates the generic pallets with:
`AccountId = String`, `Balance = u128`, `BlockNumber = u32`, `Nonce = u32`,
`Content = String`.  Machine integers are modelled as `Nat` with explicit
bounds: `u128` checked arithmetic via `checked_add U128MAX`, `u32` via
`checked_add U32MAX`.  A Rust `BTreeMap` is modelled as an association list
with key-unique insert/lookup/remove (`insertAL`, `lookupAL`, `removeAL`).
Methods taking `&mut self` become state-passing functions returning the new
pallet state together with the `Result` (`Except String Unit`, matching
`Result<(), &'static str>`); the `unwrap()` panic in `inc_nonce` is modelled
by `Option`, `none` standing for the aborting panic.
-/

/-- Association-list insert modelling `BTreeMap::insert`: replaces the first
binding of the key, otherwise appends. -/
def insertAL {α β : Type} [DecidableEq α] : List (α × β) → α → β → List (α × β)
  | [], k, v => [(k, v)]
  | (k', v') :: rest, k, v =>
    if k' = k then (k, v) :: rest else (k', v') :: insertAL rest k v

/-- Association-list lookup modelling `BTreeMap::get`. -/
def lookupAL {α β : Type} [DecidableEq α] : List (α × β) → α → Option β
  | [], _ => none
  | (k', v') :: rest, k => if k' = k then some v' else lookupAL rest k

/-- Association-list removal modelling `BTreeMap::remove`: drops the first
binding of the key. -/
def removeAL {α β : Type} [DecidableEq α] : List (α × β) → α → List (α × β)
  | [], _ => []
  | (k', v') :: rest, k => if k' = k then rest else (k', v') :: removeAL rest k

/-- Largest value of Rust `u32`. -/
def U32MAX : Nat := 2 ^ 32 - 1

/-- Largest value of Rust `u128`. -/
def U128MAX : Nat := 2 ^ 128 - 1

/-- Rust `checked_sub` on unsigned integers: `none` on underflow. -/
def checked_sub (a b : Nat) : Option Nat :=
  if b ≤ a then some (a - b) else none

/-- Rust `checked_add` on an unsigned integer type with largest value `max`:
`none` on overflow past `max`. -/
def checked_add (max a b : Nat) : Option Nat :=
  if a + b ≤ max then some (a + b) else none

/-- State of `balances::Pallet` (src/balances.rs): the `balances` BTreeMap. -/
structure BalancesPallet where
  balances : List (String × Nat)
deriving DecidableEq, Repr

/-- `Pallet::balance` (src/balances.rs line 42): stored balance, zero if absent. -/
def BalancesPallet.balance (p : BalancesPallet) (who : String) : Nat :=
  (lookupAL p.balances who).getD 0

/-- `Pallet::set_balance` (src/balances.rs line 38): unconditional overwrite. -/
def BalancesPallet.set_balance (p : BalancesPallet) (who : String) (amount : Nat) :
    BalancesPallet :=
  ⟨insertAL p.balances who amount⟩

/-- `Pallet::transfer` (src/balances.rs lines 46-66): read both balances,
checked-subtract from the caller, checked-add to the recipient, and only then
write the caller's and then the recipient's new balance. -/
def BalancesPallet.transfer (p : BalancesPallet) (caller to_account : String) (amount : Nat) :
    BalancesPallet × Except String Unit :=
  let caller_balance := p.balance caller
  let to_balance := p.balance to_account
  match checked_sub caller_balance amount with
  | none => (p, .error "Insufficient balance")
  | some new_caller_balance =>
    match checked_add U128MAX to_balance amount with
    | none => (p, .error "Overflow when adding balance")
    | some new_to_balance =>
      ((p.set_balance caller new_caller_balance).set_balance to_account new_to_balance, .ok ())

/-- `balances::Call` (src/balances.rs). -/
inductive BalancesCall where
  | Transfer (to_account : String) (amount : Nat)
deriving DecidableEq, Repr

/-- `support::Dispatch` impl for `balances::Pallet` (src/balances.rs lines 20-31). -/
def BalancesPallet.dispatch (p : BalancesPallet) (caller : String) :
    BalancesCall → BalancesPallet × Except String Unit
  | .Transfer to_account amount => p.transfer caller to_account amount

/-- State of `proof_of_existence::Pallet` (src/proof_of_existence.rs): the
`claims` BTreeMap from content to owning account. -/
structure PoEPallet where
  claims : List (String × String)
deriving DecidableEq, Repr

/-- `Pallet::get_claim` (src/proof_of_existence.rs line 39). -/
def PoEPallet.get_claim (p : PoEPallet) (claim : String) : Option String :=
  lookupAL p.claims claim

/-- `Pallet::create_claim` (src/proof_of_existence.rs lines 43-52). -/
def PoEPallet.create_claim (p : PoEPallet) (caller claim : String) :
    PoEPallet × Except String Unit :=
  match p.get_claim claim with
  | some _ => (p, .error "Claim already exists")
  | none => (⟨insertAL p.claims claim caller⟩, .ok ())

/-- `Pallet::revoke_claim` (src/proof_of_existence.rs lines 54-63). -/
def PoEPallet.revoke_claim (p : PoEPallet) (caller claim : String) :
    PoEPallet × Except String Unit :=
  match p.get_claim claim with
  | none => (p, .error "Claim does not exist")
  | some claim_owner =>
    if claim_owner ≠ caller then (p, .error "The claim does not belong to Caller")
    else (⟨removeAL p.claims claim⟩, .ok ())

/-- `proof_of_existence::Call` (src/proof_of_existence.rs). -/
inductive PoECall where
  | CreateClaim (claim : String)
  | RevokeClaim (claim : String)
deriving DecidableEq, Repr

/-- `support::Dispatch` impl for `proof_of_existence::Pallet`
(src/proof_of_existence.rs lines 23-33). -/
def PoEPallet.dispatch (p : PoEPallet) (caller : String) :
    PoECall → PoEPallet × Except String Unit
  | .CreateClaim claim => p.create_claim caller claim
  | .RevokeClaim claim => p.revoke_claim caller claim

/-- State of `system::Pallet` (src/system.rs): current block number and the
per-account nonce BTreeMap. -/
structure SystemPallet where
  block_number : Nat
  nonce : List (String × Nat)
deriving DecidableEq, Repr

/-- `Pallet::inc_block_number` (src/system.rs lines 27-30): checked u32
increment, `unwrap_or(zero)` wraps the overflow case to zero. -/
def SystemPallet.inc_block_number (s : SystemPallet) : SystemPallet :=
  { s with block_number := (checked_add U32MAX s.block_number 1).getD 0 }

/-- `Pallet::inc_nonce` (src/system.rs lines 32-38): checked u32 increment of
the caller's nonce (zero if absent) followed by `unwrap()`, which panics on
overflow; the panic is modelled by `none`. -/
def SystemPallet.inc_nonce (s : SystemPallet) (who : String) : Option SystemPallet :=
  let nonce := (lookupAL s.nonce who).getD 0
  match checked_add U32MAX nonce 1 with
  | some new_nonce => some { s with nonce := insertAL s.nonce who new_nonce }
  | none => none

/-- `RuntimeCall` (src/main.rs): closed union of the pallets' calls. -/
inductive RuntimeCall where
  | Balances (call : BalancesCall)
  | ProofOfExistence (call : PoECall)
deriving DecidableEq, Repr

/-- `Runtime` (src/main.rs): one instance of each pallet. -/
structure Runtime where
  system : SystemPallet
  balances : BalancesPallet
  proof_of_existence : PoEPallet
deriving DecidableEq, Repr

/-- Modelled from the spec: `support::Header` (support.rs is not in src/);
spec section 3 gives an immutable record holding `block_number`. -/
structure Header where
  block_number : Nat
deriving DecidableEq, Repr

/-- Modelled from the spec: `support::Extrinsic` (support.rs is not in src/);
spec section 3 gives an immutable record of caller and call. -/
structure Extrinsic where
  caller : String
  call : RuntimeCall
deriving DecidableEq, Repr

/-- Modelled from the spec: `support::Block` (support.rs is not in src/);
spec section 3 gives a header plus an ordered sequence of extrinsics. -/
structure Block where
  header : Header
  extrinsics : List Extrinsic
deriving DecidableEq, Repr

/-- `support::Dispatch` impl for `Runtime` (src/main.rs lines 77-97): route the
call to the owning pallet and propagate its result unchanged. -/
def Runtime.dispatch (r : Runtime) (caller : String) :
    RuntimeCall → Runtime × Except String Unit
  | .Balances call =>
    let pr := r.balances.dispatch caller call
    ({ r with balances := pr.1 }, pr.2)
  | .ProofOfExistence call =>
    let pr := r.proof_of_existence.dispatch caller call
    ({ r with proof_of_existence := pr.1 }, pr.2)

/-- The extrinsic loop of `Runtime::execute_block` (src/main.rs lines 62-71):
for each extrinsic in order, increment the caller's nonce (a panic there,
modelled `none`, aborts everything) and dispatch, discarding any dispatch
error (it is only logged). -/
def Runtime.applyExtrinsics : Runtime → List Extrinsic → Option Runtime
  | r, [] => some r
  | r, e :: rest =>
    match r.system.inc_nonce e.caller with
    | none => none
    | some sys =>
      Runtime.applyExtrinsics ((Runtime.dispatch { r with system := sys } e.caller e.call).1) rest

/-- `Runtime::execute_block` (src/main.rs lines 56-73): increment the block
number first, fail with the mismatch error if it does not equal the header's
block number (the increment is kept), otherwise run every extrinsic and
return success. -/
def Runtime.execute_block (r : Runtime) (b : Block) :
    Option (Runtime × Except String Unit) :=
  let r1 : Runtime := { r with system := r.system.inc_block_number }
  if r1.system.block_number ≠ b.header.block_number then
    some (r1, .error "Block number mismatch")
  else
    match Runtime.applyExtrinsics r1 b.extrinsics with
    | none => none
    | some r2 => some (r2, .ok ())

deriving instance DecidableEq for Except

/-! ### Association-list lemmas -/

/-- Looking up the key just inserted returns the inserted value. -/
lemma lookupAL_insertAL_self {α β : Type} [DecidableEq α] (l : List (α × β)) (k : α) (v : β) :
    lookupAL (insertAL l k v) k = some v := by
  induction l with
  | nil => simp [insertAL, lookupAL]
  | cons head rest ih =>
    obtain ⟨k', v'⟩ := head
    by_cases h : k' = k
    · simp [insertAL, lookupAL, h]
    · simp [insertAL, lookupAL, h, ih]

/-- Inserting one key leaves lookups of any other key unchanged. -/
lemma lookupAL_insertAL_ne {α β : Type} [DecidableEq α] (l : List (α × β)) (k q : α) (v : β)
    (h : q ≠ k) : lookupAL (insertAL l k v) q = lookupAL l q := by
  induction l with
  | nil => simp [insertAL, lookupAL, Ne.symm h]
  | cons head rest ih =>
    obtain ⟨k', v'⟩ := head
    by_cases hk : k' = k
    · subst hk
      simp [insertAL, lookupAL, Ne.symm h]
    · simp [insertAL, lookupAL, hk, ih]

/-- Two inserts at the same key collapse to the second one. -/
lemma insertAL_insertAL {α β : Type} [DecidableEq α] (l : List (α × β)) (k : α) (v1 v2 : β) :
    insertAL (insertAL l k v1) k v2 = insertAL l k v2 := by
  induction l with
  | nil => simp [insertAL]
  | cons head rest ih =>
    obtain ⟨k', v'⟩ := head
    by_cases hk : k' = k
    · simp [insertAL, hk]
    · simp [insertAL, hk, ih]

/-- Effect of an insert on the sum of the stored values: the new sum plus the
replaced value equals the old sum plus the inserted value. -/
lemma sum_insertAL {α : Type} [DecidableEq α] (l : List (α × Nat)) (k : α) (v : Nat) :
    ((insertAL l k v).map Prod.snd).sum + (lookupAL l k).getD 0
      = (l.map Prod.snd).sum + v := by
  induction l with
  | nil => simp [insertAL, lookupAL]
  | cons head rest ih =>
    obtain ⟨k', v'⟩ := head
    by_cases hk : k' = k
    · simp [insertAL, lookupAL, hk]
      omega
    · simp [insertAL, lookupAL, hk]
      omega

/-- A key not among the stored keys looks up to `none`. -/
lemma lookupAL_eq_none {α β : Type} [DecidableEq α] (l : List (α × β)) (k : α)
    (h : k ∉ l.map Prod.fst) : lookupAL l k = none := by
  induction l with
  | nil => simp [lookupAL]
  | cons head rest ih =>
    obtain ⟨k', v'⟩ := head
    simp only [List.map_cons, List.mem_cons] at h
    push_neg at h
    have hne : k' ≠ k := fun e => h.1 e.symm
    simp [lookupAL, hne, ih h.2]

/-- On a duplicate-free association list, removal makes the key absent. -/
lemma lookupAL_removeAL_self {α β : Type} [DecidableEq α] (l : List (α × β)) (k : α)
    (h : (l.map Prod.fst).Nodup) : lookupAL (removeAL l k) k = none := by
  induction l with
  | nil => simp [removeAL, lookupAL]
  | cons head rest ih =>
    obtain ⟨k', v'⟩ := head
    simp only [List.map_cons, List.nodup_cons] at h
    by_cases hk : k' = k
    · subst hk
      simpa [removeAL] using lookupAL_eq_none rest k' h.1
    · simp [removeAL, lookupAL, hk, ih h.2]

/-! ### Balances pallet lemmas -/

/-- `set_balance` makes the written balance readable. -/
lemma balance_set_balance_self (p : BalancesPallet) (who : String) (amount : Nat) :
    (p.set_balance who amount).balance who = amount := by
  simp [BalancesPallet.balance, BalancesPallet.set_balance, lookupAL_insertAL_self]

/-- `set_balance` leaves every other account's balance unchanged. -/
lemma balance_set_balance_ne (p : BalancesPallet) (who other : String) (amount : Nat)
    (h : other ≠ who) : (p.set_balance who amount).balance other = p.balance other := by
  simp [BalancesPallet.balance, BalancesPallet.set_balance, lookupAL_insertAL_ne _ _ _ _ h]

/-- On the success path `transfer` writes the debited then the credited balance. -/
lemma transfer_eq_of_checks (p : BalancesPallet) (A B : String) (v : Nat)
    (h1 : v ≤ p.balance A) (h2 : p.balance B + v ≤ U128MAX) :
    p.transfer A B v
      = ((p.set_balance A (p.balance A - v)).set_balance B (p.balance B + v), .ok ()) := by
  simp [BalancesPallet.transfer, checked_sub, checked_add, h1, h2]

/-! ### Claims about the balances pallet -/

/-- C1 counterexample: the claim "v ≤ balance(A) implies transfer(A,B,v)
returns Ok with balance(A) debited and balance(B) credited" fails on the code
at two concrete inputs: with balance(alice)=1 and balance(bob)=u128::MAX the
transfer of 1 errors with the overflow message although 1 ≤ balance(alice);
and the self-transfer of 5 from carol (balance 10) succeeds but leaves
balance(carol)=15, not 10−5. -/
theorem C1_transfer_claim_cex :
    (1 ≤ BalancesPallet.balance ⟨[("alice", 1), ("bob", U128MAX)]⟩ "alice" ∧
      (BalancesPallet.transfer ⟨[("alice", 1), ("bob", U128MAX)]⟩ "alice" "bob" 1).2
        = .error "Overflow when adding balance") ∧
    (5 ≤ BalancesPallet.balance ⟨[("carol", 10)]⟩ "carol" ∧
      (BalancesPallet.transfer ⟨[("carol", 10)]⟩ "carol" "carol" 5).2 = .ok () ∧
      BalancesPallet.balance
        (BalancesPallet.transfer ⟨[("carol", 10)]⟩ "carol" "carol" 5).1 "carol" = 15) := by
  decide

/-- C1 (amended): for distinct accounts A ≠ B and v ≤ balance(A) with
balance(B) + v within the u128 range, transfer(A,B,v) returns Ok, debits A by
v, credits B by v, and conserves balance(A) + balance(B). -/
theorem C1_transfer_ok (p : BalancesPallet) (A B : String) (v : Nat)
    (hAB : A ≠ B) (h1 : v ≤ p.balance A) (h2 : p.balance B + v ≤ U128MAX) :
    (p.transfer A B v).2 = .ok () ∧
    (p.transfer A B v).1.balance A = p.balance A - v ∧
    (p.transfer A B v).1.balance B = p.balance B + v ∧
    (p.transfer A B v).1.balance A + (p.transfer A B v).1.balance B
      = p.balance A + p.balance B := by
  rw [transfer_eq_of_checks p A B v h1 h2]
  refine ⟨rfl, ?_, ?_, ?_⟩
  · rw [balance_set_balance_ne _ _ _ _ hAB, balance_set_balance_self]
  · rw [balance_set_balance_self]
  · rw [balance_set_balance_ne _ _ _ _ hAB, balance_set_balance_self,
      balance_set_balance_self]
    omega

/-- C1 witness: the amended theorem at balance(alice)=100, balance(bob)=100,
v = 10, matching the repository's own `transfer_balance` test. -/
theorem C1_transfer_ok_witness :
    (BalancesPallet.transfer ⟨[("alice", 100), ("bob", 100)]⟩ "alice" "bob" 10).2 = .ok () ∧
    (BalancesPallet.transfer ⟨[("alice", 100), ("bob", 100)]⟩ "alice" "bob" 10).1.balance "alice"
      = BalancesPallet.balance ⟨[("alice", 100), ("bob", 100)]⟩ "alice" - 10 ∧
    (BalancesPallet.transfer ⟨[("alice", 100), ("bob", 100)]⟩ "alice" "bob" 10).1.balance "bob"
      = BalancesPallet.balance ⟨[("alice", 100), ("bob", 100)]⟩ "bob" + 10 ∧
    (BalancesPallet.transfer ⟨[("alice", 100), ("bob", 100)]⟩ "alice" "bob" 10).1.balance "alice"
      + (BalancesPallet.transfer ⟨[("alice", 100), ("bob", 100)]⟩ "alice" "bob" 10).1.balance "bob"
      = BalancesPallet.balance ⟨[("alice", 100), ("bob", 100)]⟩ "alice"
        + BalancesPallet.balance ⟨[("alice", 100), ("bob", 100)]⟩ "bob" :=
  C1_transfer_ok ⟨[("alice", 100), ("bob", 100)]⟩ "alice" "bob" 10
    (by decide) (by decide) (by decide)

/-- C2: a self-transfer of v ≤ balance(A) with balance(A) + v in range
returns Ok and sets balance(A) to the old balance plus v — both balances are
read before any write and the stale credited balance is written last — so the
sum of all stored balances (the total supply) grows by v. -/
theorem C2_self_transfer_inflates_supply (p : BalancesPallet) (A : String) (v : Nat)
    (h1 : v ≤ p.balance A) (h2 : p.balance A + v ≤ U128MAX) :
    (p.transfer A A v).2 = .ok () ∧
    (p.transfer A A v).1.balance A = p.balance A + v ∧
    (∀ C, C ≠ A → (p.transfer A A v).1.balance C = p.balance C) ∧
    ((p.transfer A A v).1.balances.map Prod.snd).sum
      = (p.balances.map Prod.snd).sum + v := by
  rw [transfer_eq_of_checks p A A v h1 h2]
  have hcollapse :
      (p.set_balance A (p.balance A - v)).set_balance A (p.balance A + v)
        = p.set_balance A (p.balance A + v) := by
    simp [BalancesPallet.set_balance, insertAL_insertAL]
  rw [hcollapse]
  refine ⟨rfl, balance_set_balance_self _ _ _, fun C hC => balance_set_balance_ne _ _ _ _ hC, ?_⟩
  have hsum := sum_insertAL p.balances A (p.balance A + v)
  have hbal : (lookupAL p.balances A).getD 0 = p.balance A := rfl
  rw [hbal] at hsum
  simp only [BalancesPallet.set_balance]
  omega

/-- C2 witness: carol holds 10, self-transfers 5, ends with 15 and the supply
grows by 5. -/
theorem C2_self_transfer_witness :
    (BalancesPallet.transfer ⟨[("carol", 10)]⟩ "carol" "carol" 5).2 = .ok () ∧
    (BalancesPallet.transfer ⟨[("carol", 10)]⟩ "carol" "carol" 5).1.balance "carol"
      = BalancesPallet.balance ⟨[("carol", 10)]⟩ "carol" + 5 ∧
    (∀ C, C ≠ "carol" →
      (BalancesPallet.transfer ⟨[("carol", 10)]⟩ "carol" "carol" 5).1.balance C
        = BalancesPallet.balance ⟨[("carol", 10)]⟩ C) ∧
    ((BalancesPallet.transfer ⟨[("carol", 10)]⟩ "carol" "carol" 5).1.balances.map Prod.snd).sum
      = ((⟨[("carol", 10)]⟩ : BalancesPallet).balances.map Prod.snd).sum + 5 :=
  C2_self_transfer_inflates_supply ⟨[("carol", 10)]⟩ "carol" 5 (by decide) (by decide)

/-- C3: when v > balance(A), transfer(A,B,v) fails with the insufficient
balance error and returns the balances map untouched. -/
theorem C3_transfer_insufficient (p : BalancesPallet) (A B : String) (v : Nat)
    (h : p.balance A < v) :
    p.transfer A B v = (p, .error "Insufficient balance") := by
  have hlt : ¬ v ≤ p.balance A := by omega
  simp [BalancesPallet.transfer, checked_sub, hlt]

/-- C3 witness: the repository's `transfer_balance_insufficient` test input,
alice holds 100 and transfers 200. -/
theorem C3_transfer_insufficient_witness :
    BalancesPallet.balance ⟨[("alice", 100), ("bob", 0)]⟩ "alice" < 200 ∧
    BalancesPallet.transfer ⟨[("alice", 100), ("bob", 0)]⟩ "alice" "bob" 200
      = (⟨[("alice", 100), ("bob", 0)]⟩, .error "Insufficient balance") :=
  ⟨by decide, C3_transfer_insufficient ⟨[("alice", 100), ("bob", 0)]⟩ "alice" "bob" 200 (by decide)⟩

/-- C4: when v ≤ balance(A) but balance(B) + v exceeds u128::MAX,
transfer(A,B,v) fails with the overflow error and returns the balances map
untouched — the already-computed debited balance is discarded. -/
theorem C4_transfer_overflow (p : BalancesPallet) (A B : String) (v : Nat)
    (h1 : v ≤ p.balance A) (h2 : U128MAX < p.balance B + v) :
    p.transfer A B v = (p, .error "Overflow when adding balance") := by
  have hadd : ¬ p.balance B + v ≤ U128MAX := by omega
  simp [BalancesPallet.transfer, checked_sub, checked_add, h1, hadd]

/-- C4 witness: the repository's `transfer_balance_overflow` test input, bob
already holds u128::MAX and alice transfers 100. -/
theorem C4_transfer_overflow_witness :
    100 ≤ BalancesPallet.balance ⟨[("alice", 100), ("bob", U128MAX)]⟩ "alice" ∧
    U128MAX < BalancesPallet.balance ⟨[("alice", 100), ("bob", U128MAX)]⟩ "bob" + 100 ∧
    BalancesPallet.transfer ⟨[("alice", 100), ("bob", U128MAX)]⟩ "alice" "bob" 100
      = (⟨[("alice", 100), ("bob", U128MAX)]⟩, .error "Overflow when adding balance") :=
  ⟨by decide, by decide,
    C4_transfer_overflow ⟨[("alice", 100), ("bob", U128MAX)]⟩ "alice" "bob" 100
      (by decide) (by decide)⟩

/-! ### Claims about the proof-of-existence pallet -/

/-- C5: on unclaimed content, create_claim(X,c) returns Ok and records X as
the owner of c without touching any other content; a subsequent
create_claim(Y,c) — same or different caller — fails with the claim-exists
error and X stays the owner. -/
theorem C5_create_claim (p : PoEPallet) (X Y c : String)
    (h : p.get_claim c = none) :
    (p.create_claim X c).2 = .ok () ∧
    (p.create_claim X c).1.get_claim c = some X ∧
    (∀ d, d ≠ c → (p.create_claim X c).1.get_claim d = p.get_claim d) ∧
    ((p.create_claim X c).1.create_claim Y c).2 = .error "Claim already exists" ∧
    ((p.create_claim X c).1.create_claim Y c).1.get_claim c = some X := by
  have e1 : p.create_claim X c = (⟨insertAL p.claims c X⟩, .ok ()) := by
    simp [PoEPallet.create_claim, h]
  rw [e1]
  have hl : (⟨insertAL p.claims c X⟩ : PoEPallet).get_claim c = some X := by
    simp [PoEPallet.get_claim, lookupAL_insertAL_self]
  have e2 : (⟨insertAL p.claims c X⟩ : PoEPallet).create_claim Y c
      = (⟨insertAL p.claims c X⟩, .error "Claim already exists") := by
    simp [PoEPallet.create_claim, hl]
  refine ⟨rfl, hl, ?_, ?_, ?_⟩
  · intro d hd
    simp [PoEPallet.get_claim, lookupAL_insertAL_ne _ _ _ _ hd]
  · rw [e2]
  · rw [e2]
    exact hl

/-- C5 witness: alice claims "doc" in the empty registry, then bob's attempt
on "doc" is refused and alice remains the owner. -/
theorem C5_create_claim_witness :
    (PoEPallet.create_claim ⟨[]⟩ "alice" "doc").2 = .ok () ∧
    (PoEPallet.create_claim ⟨[]⟩ "alice" "doc").1.get_claim "doc" = some "alice" ∧
    (∀ d, d ≠ "doc" →
      (PoEPallet.create_claim ⟨[]⟩ "alice" "doc").1.get_claim d
        = PoEPallet.get_claim ⟨[]⟩ d) ∧
    ((PoEPallet.create_claim ⟨[]⟩ "alice" "doc").1.create_claim "bob" "doc").2
      = .error "Claim already exists" ∧
    ((PoEPallet.create_claim ⟨[]⟩ "alice" "doc").1.create_claim "bob" "doc").1.get_claim "doc"
      = some "alice" :=
  C5_create_claim ⟨[]⟩ "alice" "bob" "doc" (by decide)

/-- C6: revoke_claim(caller,c) fails with the not-found error on unclaimed c,
fails with the not-owner error (registry untouched) when c is owned by
someone else, and on the owner's call returns Ok and deletes the entry so
get_claim(c) is None.  The duplicate-free-keys hypothesis is the
representation invariant of the BTreeMap model. -/
theorem C6_revoke_claim (p : PoEPallet) (caller c : String)
    (hnd : (p.claims.map Prod.fst).Nodup) :
    (p.get_claim c = none → p.revoke_claim caller c = (p, .error "Claim does not exist")) ∧
    (∀ O, p.get_claim c = some O → O ≠ caller →
      p.revoke_claim caller c = (p, .error "The claim does not belong to Caller")) ∧
    (p.get_claim c = some caller →
      (p.revoke_claim caller c).2 = .ok () ∧
      (p.revoke_claim caller c).1.get_claim c = none) := by
  refine ⟨?_, ?_, ?_⟩
  · intro h
    simp [PoEPallet.revoke_claim, h]
  · intro O hO hne
    simp [PoEPallet.revoke_claim, hO, hne]
  · intro h
    have e : p.revoke_claim caller c = (⟨removeAL p.claims c⟩, .ok ()) := by
      simp [PoEPallet.revoke_claim, h]
    rw [e]
    exact ⟨rfl, by simpa [PoEPallet.get_claim] using lookupAL_removeAL_self p.claims c hnd⟩

/-- C6 witness: alice owns "doc" and revokes it; the call succeeds and the
claim disappears. -/
theorem C6_revoke_claim_witness :
    (PoEPallet.revoke_claim ⟨[("doc", "alice")]⟩ "alice" "doc").2 = .ok () ∧
    (PoEPallet.revoke_claim ⟨[("doc", "alice")]⟩ "alice" "doc").1.get_claim "doc" = none :=
  (C6_revoke_claim ⟨[("doc", "alice")]⟩ "alice" "doc" (by decide)).2.2 (by decide)

/-! ### Runtime-level helper definitions and lemmas -/

/-- Number of extrinsics in a list submitted by a given caller. -/
def countCaller : List Extrinsic → String → Nat
  | [], _ => 0
  | e :: rest, who => (if e.caller = who then 1 else 0) + countCaller rest who

/-- Stored nonce of an account, zero if the account was never seen. -/
def Runtime.nonceOf (r : Runtime) (who : String) : Nat :=
  (lookupAL r.system.nonce who).getD 0

/-- `Runtime::dispatch` only touches the pallet owning the call, never the
system pallet. -/
lemma dispatch_system (r : Runtime) (caller : String) (call : RuntimeCall) :
    (r.dispatch caller call).1.system = r.system := by
  cases call <;> rfl

/-- `inc_nonce` below the u32 bound: the nonce map gains the incremented
nonce and nothing else changes. -/
lemma inc_nonce_eq (s : SystemPallet) (who : String)
    (h : (lookupAL s.nonce who).getD 0 + 1 ≤ U32MAX) :
    s.inc_nonce who
      = some { s with nonce := insertAL s.nonce who ((lookupAL s.nonce who).getD 0 + 1) } := by
  simp [SystemPallet.inc_nonce, checked_add, h]

/-- `inc_block_number` below the u32 bound adds exactly one. -/
lemma inc_block_number_eq (s : SystemPallet) (h : s.block_number < U32MAX) :
    s.inc_block_number = { s with block_number := s.block_number + 1 } := by
  simp [SystemPallet.inc_block_number, checked_add, show s.block_number + 1 ≤ U32MAX from h]

/-! ### Claims about the system pallet and block execution -/

/-- C9: `inc_block_number` adds one to the stored block number, except at
u32::MAX where it wraps to zero; for the u32 block-number type this is
exactly (old + 1) mod 2^32. -/
theorem C9_inc_block_number (s : SystemPallet) (h : s.block_number ≤ U32MAX) :
    (s.block_number < U32MAX → s.inc_block_number.block_number = s.block_number + 1) ∧
    (s.block_number = U32MAX → s.inc_block_number.block_number = 0) ∧
    s.inc_block_number.block_number = (s.block_number + 1) % 2 ^ 32 := by
  simp only [SystemPallet.inc_block_number, checked_add, U32MAX] at *
  refine ⟨fun hlt => ?_, fun heq => ?_, ?_⟩
  · rw [if_pos (by omega)]
    rfl
  · rw [if_neg (by omega)]
    rfl
  · by_cases hb : s.block_number + 1 ≤ 2 ^ 32 - 1
    · rw [if_pos hb]
      simp only [Option.getD_some]
      omega
    · rw [if_neg hb]
      simp only [Option.getD_none]
      omega

/-- C9 witness: a fresh system pallet at block 0 advances to 1 = 1 % 2^32. -/
theorem C9_inc_block_number_witness :
    ((0 : Nat) < U32MAX →
      (SystemPallet.inc_block_number ⟨0, []⟩).block_number = 0 + 1) ∧
    ((0 : Nat) = U32MAX →
      (SystemPallet.inc_block_number ⟨0, []⟩).block_number = 0) ∧
    (SystemPallet.inc_block_number ⟨0, []⟩).block_number = (0 + 1) % 2 ^ 32 :=
  C9_inc_block_number ⟨0, []⟩ (by decide)

/-- C7 counterexample: at block number u32::MAX the increment wraps to zero,
so a block with header 0 — which is not the current block number plus one —
is nevertheless accepted and its extrinsic is applied, contradicting the
claim that every such block fails with the mismatch error. -/
theorem C7_execute_block_mismatch_cex :
    (0 : Nat) ≠ U32MAX + 1 ∧
    Runtime.execute_block ⟨⟨U32MAX, []⟩, ⟨[]⟩, ⟨[]⟩⟩
        ⟨⟨0⟩, [⟨"alice", .ProofOfExistence (.CreateClaim "doc")⟩]⟩
      = some (⟨⟨0, [("alice", 1)]⟩, ⟨[]⟩, ⟨[("doc", "alice")]⟩⟩, .ok ()) := by
  decide

/-- C7 (amended): for a runtime whose block number is below u32::MAX and a
block whose header does not equal the current block number plus one,
execute_block fails with the mismatch error and no extrinsic is applied:
balances, claims and nonces are all returned unchanged. -/
theorem C7_execute_block_mismatch (r : Runtime) (b : Block)
    (hbn : r.system.block_number < U32MAX)
    (hmm : b.header.block_number ≠ r.system.block_number + 1) :
    ∃ r1, r.execute_block b = some (r1, .error "Block number mismatch") ∧
      r1.balances = r.balances ∧
      r1.proof_of_existence = r.proof_of_existence ∧
      r1.system.nonce = r.system.nonce := by
  refine ⟨{ r with system := r.system.inc_block_number }, ?_, rfl, rfl, rfl⟩
  have hinc := inc_block_number_eq r.system hbn
  simp [Runtime.execute_block, hinc, Ne.symm hmm]

/-- C7 witness: at block number 0, a block with header 5 is rejected with the
mismatch error and all pallet state comes back unchanged. -/
theorem C7_execute_block_mismatch_witness :
    (⟨⟨0, []⟩, ⟨[("alice", 100)]⟩, ⟨[]⟩⟩ : Runtime).system.block_number < U32MAX ∧
    (∃ r1, Runtime.execute_block ⟨⟨0, []⟩, ⟨[("alice", 100)]⟩, ⟨[]⟩⟩
        ⟨⟨5⟩, [⟨"alice", .Balances (.Transfer "bob" 10)⟩]⟩
        = some (r1, .error "Block number mismatch") ∧
      r1.balances = (⟨⟨0, []⟩, ⟨[("alice", 100)]⟩, ⟨[]⟩⟩ : Runtime).balances ∧
      r1.proof_of_existence = (⟨⟨0, []⟩, ⟨[("alice", 100)]⟩, ⟨[]⟩⟩ : Runtime).proof_of_existence ∧
      r1.system.nonce = (⟨⟨0, []⟩, ⟨[("alice", 100)]⟩, ⟨[]⟩⟩ : Runtime).system.nonce) :=
  ⟨by decide,
    C7_execute_block_mismatch ⟨⟨0, []⟩, ⟨[("alice", 100)]⟩, ⟨[]⟩⟩
      ⟨⟨5⟩, [⟨"alice", .Balances (.Transfer "bob" 10)⟩]⟩ (by decide) (by decide)⟩

/-- C10 counterexample: at block number u32::MAX, a mismatching header (7)
does produce the mismatch error, but the block number is wrapped to 0, not
advanced by one — so the claim's "advanced by one" fails at the wrap. -/
theorem C10_block_counter_cex :
    (7 : Nat) ≠ U32MAX + 1 ∧
    Runtime.execute_block ⟨⟨U32MAX, []⟩, ⟨[]⟩, ⟨[]⟩⟩ ⟨⟨7⟩, []⟩
      = some (⟨⟨0, []⟩, ⟨[]⟩, ⟨[]⟩⟩, .error "Block number mismatch") ∧
    (0 : Nat) ≠ U32MAX + 1 := by
  decide

/-- C10 (amended): for a runtime whose block number is below u32::MAX, a
block with a mismatching header is rejected with the mismatch error, yet the
stored block number has still been advanced by one — the failed call is not
atomic with respect to the block counter. -/
theorem C10_block_counter_advances_on_mismatch (r : Runtime) (b : Block)
    (hbn : r.system.block_number < U32MAX)
    (hmm : b.header.block_number ≠ r.system.block_number + 1) :
    ∃ r1, r.execute_block b = some (r1, .error "Block number mismatch") ∧
      r1.system.block_number = r.system.block_number + 1 := by
  refine ⟨{ r with system := r.system.inc_block_number }, ?_, ?_⟩
  · have hinc := inc_block_number_eq r.system hbn
    simp [Runtime.execute_block, hinc, Ne.symm hmm]
  · simp [inc_block_number_eq r.system hbn]

/-- C10 witness: at block number 3, a block with header 9 is rejected but the
block number still moves to 4. -/
theorem C10_block_counter_witness :
    (⟨⟨3, []⟩, ⟨[]⟩, ⟨[]⟩⟩ : Runtime).system.block_number < U32MAX ∧
    (∃ r1, Runtime.execute_block ⟨⟨3, []⟩, ⟨[]⟩, ⟨[]⟩⟩ ⟨⟨9⟩, []⟩
        = some (r1, .error "Block number mismatch") ∧
      r1.system.block_number = (⟨⟨3, []⟩, ⟨[]⟩, ⟨[]⟩⟩ : Runtime).system.block_number + 1) :=
  ⟨by decide,
    C10_block_counter_advances_on_mismatch ⟨⟨3, []⟩, ⟨[]⟩, ⟨[]⟩⟩ ⟨⟨9⟩, []⟩
      (by decide) (by decide)⟩

/-- Unfolding `countCaller` at the head extrinsic's own caller. -/
lemma countCaller_cons_self (e : Extrinsic) (rest : List Extrinsic) :
    countCaller (e :: rest) e.caller = 1 + countCaller rest e.caller := by
  simp [countCaller]

/-- Unfolding `countCaller` at any other caller. -/
lemma countCaller_cons_ne (e : Extrinsic) (rest : List Extrinsic) (who : String)
    (h : e.caller ≠ who) : countCaller (e :: rest) who = countCaller rest who := by
  simp [countCaller, h]

/-- The extrinsic loop never panics and each caller's nonce grows by their
number of extrinsics, in array order, provided no nonce crosses u32::MAX;
the block number is untouched by the loop. -/
lemma applyExtrinsics_nonces (es : List Extrinsic) :
    ∀ r : Runtime, (∀ who, r.nonceOf who + countCaller es who ≤ U32MAX) →
      ∃ r2, Runtime.applyExtrinsics r es = some r2 ∧
        (∀ who, r2.nonceOf who = r.nonceOf who + countCaller es who) ∧
        r2.system.block_number = r.system.block_number := by
  induction es with
  | nil =>
    intro r _
    exact ⟨r, rfl, fun who => by simp [countCaller], rfl⟩
  | cons e rest ih =>
    intro r h
    have hc : r.nonceOf e.caller + 1 ≤ U32MAX := by
      have he := h e.caller
      rw [countCaller_cons_self] at he
      omega
    have hinc := inc_nonce_eq r.system e.caller hc
    set rd : Runtime :=
      (Runtime.dispatch
        { r with system :=
            { r.system with
                nonce := insertAL r.system.nonce e.caller (r.nonceOf e.caller + 1) } }
        e.caller e.call).1 with hrd
    have hsys : rd.system =
        { r.system with
            nonce := insertAL r.system.nonce e.caller (r.nonceOf e.caller + 1) } := by
      rw [hrd]
      exact dispatch_system _ _ _
    have hnd_self : rd.nonceOf e.caller = r.nonceOf e.caller + 1 := by
      simp [Runtime.nonceOf, hsys, lookupAL_insertAL_self]
    have hnd_ne : ∀ who, who ≠ e.caller → rd.nonceOf who = r.nonceOf who := by
      intro who hw
      simp [Runtime.nonceOf, hsys, lookupAL_insertAL_ne _ _ _ _ hw]
    obtain ⟨r2, happ, hn, hbn⟩ := ih rd (by
      intro who
      by_cases hq : who = e.caller
      · subst hq
        have hw := h e.caller
        rw [countCaller_cons_self] at hw
        rw [hnd_self]
        omega
      · have hcc : e.caller ≠ who := fun hx => hq hx.symm
        have hw := h who
        rw [countCaller_cons_ne _ _ _ hcc] at hw
        rw [hnd_ne who hq]
        omega)
    refine ⟨r2, ?_, ?_, ?_⟩
    · show Runtime.applyExtrinsics r (e :: rest) = some r2
      simp only [Runtime.applyExtrinsics]
      rw [hinc]
      exact happ
    · intro who
      by_cases hq : who = e.caller
      · subst hq
        rw [hn e.caller, hnd_self, countCaller_cons_self]
        omega
      · have hcc : e.caller ≠ who := fun hx => hq hx.symm
        rw [hn who, hnd_ne who hq, countCaller_cons_ne _ _ _ hcc]
    · rw [hbn, hsys]

/-- C8 counterexample: with alice's stored nonce already at u32::MAX, a block
with the correct header (current block number plus one) makes `inc_nonce`
panic on its `unwrap()` — modelled by `none` — so execute_block does not
return Ok, contradicting the claim that it succeeds regardless. -/
theorem C8_execute_block_ok_cex :
    (1 : Nat) = 0 + 1 ∧
    Runtime.execute_block ⟨⟨0, [("alice", U32MAX)]⟩, ⟨[]⟩, ⟨[]⟩⟩
      ⟨⟨1⟩, [⟨"alice", .ProofOfExistence (.CreateClaim "doc")⟩]⟩ = none := by
  decide

/-- C8 (amended): for a block whose header equals the current block number
plus one (block number below u32::MAX) and whose extrinsics do not push any
caller's nonce past u32::MAX, execute_block returns Ok whatever the
individual dispatch outcomes, and every account's nonce grows by exactly its
number of extrinsics in the block, in array order. -/
theorem C8_execute_block_ok (r : Runtime) (b : Block)
    (hbn : r.system.block_number < U32MAX)
    (hheader : b.header.block_number = r.system.block_number + 1)
    (hnonce : ∀ who, r.nonceOf who + countCaller b.extrinsics who ≤ U32MAX) :
    ∃ r2, r.execute_block b = some (r2, .ok ()) ∧
      ∀ who, r2.nonceOf who = r.nonceOf who + countCaller b.extrinsics who := by
  have hinc := inc_block_number_eq r.system hbn
  have hr1n : ∀ who,
      Runtime.nonceOf { r with system := r.system.inc_block_number } who = r.nonceOf who := by
    intro who
    simp [Runtime.nonceOf, hinc]
  obtain ⟨r2, happ, hn, _⟩ :=
    applyExtrinsics_nonces b.extrinsics { r with system := r.system.inc_block_number }
      (fun who => by rw [hr1n who]; exact hnonce who)
  refine ⟨r2, ?_, fun who => by rw [hn who, hr1n who]⟩
  simp only [Runtime.execute_block]
  rw [hinc] at happ ⊢
  simp only [hheader]
  rw [if_neg (by simp)]
  rw [happ]

/-- C8 witness: the driver's first block — alice submits three transfers
(40 to bob, 20 to charlie, 20 to charlie) on header 1 — executes Ok and
alice's nonce grows by her three extrinsics. -/
theorem C8_execute_block_witness :
    ∃ r2, Runtime.execute_block ⟨⟨0, []⟩, ⟨[("alice", 100), ("bob", 0)]⟩, ⟨[]⟩⟩
        ⟨⟨1⟩, [⟨"alice", .Balances (.Transfer "bob" 40)⟩,
               ⟨"alice", .Balances (.Transfer "charlie" 20)⟩,
               ⟨"alice", .Balances (.Transfer "charlie" 20)⟩]⟩ = some (r2, .ok ()) ∧
      ∀ who, r2.nonceOf who
        = Runtime.nonceOf ⟨⟨0, []⟩, ⟨[("alice", 100), ("bob", 0)]⟩, ⟨[]⟩⟩ who
          + countCaller [⟨"alice", .Balances (.Transfer "bob" 40)⟩,
               ⟨"alice", .Balances (.Transfer "charlie" 20)⟩,
               ⟨"alice", .Balances (.Transfer "charlie" 20)⟩] who :=
  C8_execute_block_ok ⟨⟨0, []⟩, ⟨[("alice", 100), ("bob", 0)]⟩, ⟨[]⟩⟩
    ⟨⟨1⟩, [⟨"alice", .Balances (.Transfer "bob" 40)⟩,
           ⟨"alice", .Balances (.Transfer "charlie" 20)⟩,
           ⟨"alice", .Balances (.Transfer "charlie" 20)⟩]⟩
    (by decide) (by decide)
    (fun who => by
      have h0 : Runtime.nonceOf ⟨⟨0, []⟩, ⟨[("alice", 100), ("bob", 0)]⟩, ⟨[]⟩⟩ who = 0 := rfl
      rw [h0]
      by_cases h : "alice" = who
      · simp [countCaller, h]
        decide
      · simp [countCaller, h])
